import Mathlib

/-!
A verification development for the tk-http core: shallow embedding of
the WebSocket zero-copy frame codec (`src/websocket/zero_copy.rs`), the
server header scanner (`src/server/headers.rs`), the WebSocket handshake
(`src/server/websocket.rs`) and the client pipeline engine
(`src/client/proto.rs`), together with theorems about them.

Bytes are modelled as `Nat` (values < 256 in well-formed buffers), byte
buffers as `List Nat`, and machine-integer arithmetic is explicit
(`% 2 ^ 32`, `% 2 ^ 64` where overflow matters).
-/

namespace TkHttp

/-! ## WebSocket frame codec (`src/websocket/zero_copy.rs`) -/

/-- `websocket::error::ErrorEnum`, the variants reachable from
`parse_frame`. -/
inductive WsError where
  | tooLong
  | fragmented
  | unmasked
  | invalidOpcode (x : Nat)
  | utf8
deriving DecidableEq, Repr

/-- A parsed frame (`zero_copy::Frame`).  `text` and `close` hold the raw
validated UTF-8 bytes of the borrowed `&str`. -/
inductive Frame where
  | ping (data : List Nat)
  | pong (data : List Nat)
  | text (data : List Nat)
  | binary (data : List Nat)
  | close (code : Nat) (reason : List Nat)
deriving DecidableEq, Repr

/-- Result of `parse_frame`: `incomplete` is `Ok(None)`, `frame` is
`Ok(Some((frame, consumed)))`, `err` is `Err(_)`, and `panic` marks a
Rust panic (an out-of-bounds slice). -/
inductive PResult where
  | panic
  | err (e : WsError)
  | incomplete
  | frame (f : Frame) (consumed : Nat)
deriving DecidableEq, Repr

/-- Is a byte a UTF-8 continuation byte (`0x80..=0xBF`)? -/
def isCont (b : Nat) : Bool := 0x80 ≤ b && b ≤ 0xBF

/-- Strict UTF-8 validity of a byte sequence, as checked by Rust's
`std::str::from_utf8` (rejects overlong forms, surrogates and
code points above U+10FFFF). -/
def utf8Valid : List Nat → Bool
  | [] => true
  | b :: rest =>
    if b ≤ 0x7F then utf8Valid rest
    else if 0xC2 ≤ b && b ≤ 0xDF then
      match rest with
      | c1 :: rest2 => isCont c1 && utf8Valid rest2
      | [] => false
    else if b == 0xE0 then
      match rest with
      | c1 :: c2 :: rest2 =>
        (0xA0 ≤ c1 && c1 ≤ 0xBF) && isCont c2 && utf8Valid rest2
      | _ => false
    else if (0xE1 ≤ b && b ≤ 0xEC) || b == 0xEE || b == 0xEF then
      match rest with
      | c1 :: c2 :: rest2 => isCont c1 && isCont c2 && utf8Valid rest2
      | _ => false
    else if b == 0xED then
      match rest with
      | c1 :: c2 :: rest2 =>
        (0x80 ≤ c1 && c1 ≤ 0x9F) && isCont c2 && utf8Valid rest2
      | _ => false
    else if b == 0xF0 then
      match rest with
      | c1 :: c2 :: c3 :: rest2 =>
        (0x90 ≤ c1 && c1 ≤ 0xBF) && isCont c2 && isCont c3 && utf8Valid rest2
      | _ => false
    else if 0xF1 ≤ b && b ≤ 0xF3 then
      match rest with
      | c1 :: c2 :: c3 :: rest2 =>
        isCont c1 && isCont c2 && isCont c3 && utf8Valid rest2
      | _ => false
    else if b == 0xF4 then
      match rest with
      | c1 :: c2 :: c3 :: rest2 =>
        (0x80 ≤ c1 && c1 ≤ 0x8F) && isCont c2 && isCont c3 && utf8Valid rest2
      | _ => false
    else false

/-- `BigEndian::read_u16` on two bytes. -/
def readU16 (b0 b1 : Nat) : Nat := b0 * 256 + b1

/-- `BigEndian::read_u64(&buf[2..10])`. -/
def readU64at2 (buf : List Nat) : Nat :=
  (List.range 8).foldl (fun acc i => acc * 256 + buf.getD (2 + i) 0) 0

/-- The `(size, fsize)` header decoding of `parse_frame` (the match on
`buf[1] & 0x7F`): `none` when the buffer is too short to decode the
declared length. -/
def sizeFsize (buf : List Nat) : Option (Nat × Nat) :=
  let szbits := buf.getD 1 0 &&& 0x7F
  if szbits == 126 then
    if buf.length < 4 then none
    else some (readU16 (buf.getD 2 0) (buf.getD 3 0), 4)
  else if szbits == 127 then
    if buf.length < 10 then none
    else some (readU64at2 buf, 10)
  else some (szbits, 2)

/-- Map a function of position and byte over a list, positions starting
at `i` (helper for the in-place XOR loops). -/
def mapIdxFrom (f : Nat → Nat → Nat) (i : Nat) : List Nat → List Nat
  | [] => []
  | b :: rest => f i b :: mapIdxFrom f (i + 1) rest

/-- The in-place unmask loop: XOR positions `start..start+size` with the
4-byte key stored at `start-4..start`. -/
def unmask (buf : List Nat) (start size : Nat) : List Nat :=
  mapIdxFrom (fun i b =>
    if start ≤ i && i < start + size then
      b ^^^ buf.getD (start - 4 + (i - start) % 4) 0
    else b) 0 buf

/-- The opcode dispatch at the end of `parse_frame` (the `match opcode`).
`close` with a payload shorter than 2 bytes is a Rust panic:
`&data[..2]` is out of bounds. -/
def wsDispatch (opcode : Nat) (data : List Nat) (consumed : Nat) : PResult :=
  if opcode == 0x9 then .frame (.ping data) consumed
  else if opcode == 0xA then .frame (.pong data) consumed
  else if opcode == 0x1 then
    if utf8Valid data then .frame (.text data) consumed else .err .utf8
  else if opcode == 0x2 then .frame (.binary data) consumed
  else if opcode == 0x8 then
    if data.length < 2 then .panic
    else if utf8Valid (data.drop 2) then
      .frame (.close (readU16 (data.getD 0 0) (data.getD 1 0)) (data.drop 2))
        consumed
    else .err .utf8
  else .err (.invalidOpcode opcode)

/-- The mask-key length added to the header: `if masked { 4 } else { 0 }`. -/
def maskLen : Bool → Nat
  | true => 4
  | false => 0

/-- `zero_copy::parse_frame`: parse one frame out of `buf` under size
`limit`; `masked` is true on the server side. -/
def parse_frame (buf : List Nat) (limit : Nat) (masked : Bool) : PResult :=
  if buf.length < 2 then .incomplete else
  match sizeFsize buf with
  | none => .incomplete
  | some (size, fsize) =>
    if size > limit then .err .tooLong else
    let start := fsize + maskLen masked
    if buf.length < start + size then .incomplete else
    let fin := (buf.getD 0 0 &&& 0x80) != 0
    let opcode := buf.getD 0 0 &&& 0x0F
    let mask := (buf.getD 1 0 &&& 0x80) != 0
    if !fin then .err .fragmented else
    if mask != masked then .err .unmasked else
    let buf2 := if mask then unmask buf start size else buf
    let data := (buf2.drop start).take size
    wsDispatch opcode data (start + size)

/-- One byte of `len` in the 64-bit big-endian length encoding used by
`write_packet` (`(len >> shift) as u8`). -/
def lenByte (len shift : Nat) : Nat := (len >>> shift) % 256

/-- `zero_copy::write_packet`: the bytes appended to the buffer.  The
4-byte random mask key drawn from `thread_rng` is passed in as `key`
(unused when `mask` is false). -/
def write_packet (opcode : Nat) (data : List Nat) (mask : Bool)
    (key : List Nat) : List Nat :=
  let first := opcode ||| 0x80
  let mbit := if mask then 0x80 else 0
  let hdr : List Nat :=
    if data.length ≤ 125 then [first, data.length ||| mbit]
    else if data.length ≤ 65535 then
      [first, 126 ||| mbit, lenByte data.length 8, lenByte data.length 0]
    else
      [first, 127 ||| mbit,
       lenByte data.length 56, lenByte data.length 48,
       lenByte data.length 40, lenByte data.length 32,
       lenByte data.length 24, lenByte data.length 16,
       lenByte data.length 8, lenByte data.length 0]
  if mask then
    hdr ++ key.take 4 ++
      mapIdxFrom (fun i b => b ^^^ key.getD (i % 4) 0) 0 data
  else hdr ++ data

/-- The opcode emitted for each frame variant. -/
def frameOpcode : Frame → Nat
  | .ping _ => 0x9
  | .pong _ => 0xA
  | .text _ => 0x1
  | .binary _ => 0x2
  | .close _ _ => 0x8

/-- The payload bytes of a frame; for `close` it is the 2-byte big-endian
code followed by the reason. -/
def framePayload : Frame → List Nat
  | .ping d => d
  | .pong d => d
  | .text d => d
  | .binary d => d
  | .close code reason => code / 256 :: code % 256 :: reason

/-- Well-formedness: `text` carries valid UTF-8, `close` a 16-bit code
and a valid UTF-8 reason. -/
def frameWF : Frame → Bool
  | .text d => utf8Valid d
  | .close code reason => decide (code < 65536) && utf8Valid reason
  | _ => true


/-! ## Server header scanner (`src/server/headers.rs`)

Header names and values are ASCII strings; the byte-level operations of
the source (`split`, `trim`, case-insensitive comparison) are modelled
on the underlying character lists. -/

/-- ASCII lowercasing of one character (Rust `eq_ignore_ascii_case`). -/
def lowerChar (c : Char) : Char :=
  if 'A' ≤ c && c ≤ 'Z' then Char.ofNat (c.toNat + 32) else c

/-- Rust `eq_ignore_ascii_case` on character lists. -/
def eqIgnoreCaseL (a b : List Char) : Bool :=
  a.map lowerChar == b.map lowerChar

/-- Rust `str::eq_ignore_ascii_case`. -/
def eqIgnoreCase (a b : String) : Bool := eqIgnoreCaseL a.toList b.toList

/-- Is a character ASCII whitespace? -/
def isWsChar (c : Char) : Bool := c == ' ' || c == '\t' || c == '\r' || c == '\n'

/-- `str::trim` on a character list (the values involved are ASCII, so
ASCII whitespace suffices). -/
def trimChars (l : List Char) : List Char :=
  ((l.dropWhile isWsChar).reverse.dropWhile isWsChar).reverse

/-- `slice::split` on a separator character: always yields at least one
(possibly empty) token, like Rust's `split`. -/
def splitChars (sep : Char) : List Char → List (List Char)
  | [] => [[]]
  | c :: rest =>
    let r := splitChars sep rest
    if c == sep then [] :: r
    else match r with
      | [] => [[c]]
      | t :: ts => (c :: t) :: ts

/-- Modelled from the spec: `headers::is_chunked` (the `headers` module
is not among the sources at hand) — "take the last comma-separated
encoding token; if it equals `chunked`": one token equals `chunked`
case-insensitively after trimming. -/
def is_chunked (tok : List Char) : Bool :=
  eqIgnoreCaseL (trimChars tok) "chunked".toList

/-- Modelled from the spec: `headers::is_close` — a `Connection` token
matching `close` case-insensitively. -/
def is_close (tok : List Char) : Bool :=
  eqIgnoreCaseL (trimChars tok) "close".toList

/-- Modelled from the spec: `headers::is_continue` — an `Expect` value
of `100-continue`. -/
def is_continue (v : List Char) : Bool :=
  eqIgnoreCaseL (trimChars v) "100-continue".toList

/-- Rust `str::parse::<u64>`: optional leading `+`, at least one digit,
digits only, value below `2 ^ 64`. -/
def parseU64 (l : List Char) : Option Nat :=
  let t := match l with
    | '+' :: rest => rest
    | _ => l
  if t.isEmpty || !t.all (fun c => c.isDigit) then none
  else
    let n := t.foldl (fun acc c => acc * 10 + (c.toNat - 48)) 0
    if n < 2 ^ 64 then some n else none

/-- `server::codec::BodyKind` (the variants used by the scanner). -/
inductive BodyKind where
  | fixed (n : Nat)
  | chunked
  | unsupported
deriving DecidableEq, Repr

/-- `server::RequestTarget` (already parsed from the request line by
`request_target::parse`). -/
inductive RequestTarget where
  | origin (path : String)
  | absolute (authority : String) (path : String)
  | authority (a : String)
  | asterisk
deriving DecidableEq, Repr

/-- The header-scanner error variants (`server::error::ErrorEnum`). -/
inductive ScanError where
  | duplicateContentLength
  | contentLengthInvalid
  | duplicateHost
  | connectionInvalid
  | hostInvalid
deriving DecidableEq, Repr

/-- One request header: `(name, value)`; the value is as delivered by
`httparse`. -/
abbrev Header := String × String

/-- The mutable scanning state of `scan_headers` (the local variables of
the header loop plus the host/target bookkeeping). -/
structure ScanState where
  hasContentLength : Bool
  close : Bool
  expectContinue : Bool
  body : BodyKind
  connection : Option (List Char)
  hostHeader : Bool
  host : Option (List Char)
  conflictingHost : Bool
deriving DecidableEq, Repr

/-- The state the scan starts from: `close` is preset for HTTP/1.0 and
`host` is taken from the request-target when it carries an authority. -/
def initScan (version : Nat) (target : RequestTarget) : ScanState :=
  { hasContentLength := false
    close := version == 0
    expectContinue := false
    body := .fixed 0
    connection := none
    hostHeader := false
    host := match target with
      | .authority a => some a.toList
      | .absolute a _ => some a.toList
      | _ => none
    conflictingHost := false }

/-- One iteration of the header loop of `scan_headers`. -/
def scanStep (st : ScanState) (h : Header) : Except ScanError ScanState :=
  if eqIgnoreCase h.1 "Transfer-Encoding" then
    match (splitChars ',' h.2.toList).getLast? with
    | some enc =>
      if is_chunked enc then
        .ok { st with body := .chunked
                      close := if st.hasContentLength then true else st.close }
      else .ok st
    | none => .ok st
  else if eqIgnoreCase h.1 "Content-Length" then
    if st.hasContentLength then .error .duplicateContentLength
    else if st.body != .chunked then
      match parseU64 h.2.toList with
      | some n => .ok { st with hasContentLength := true, body := .fixed n }
      | none => .error .contentLengthInvalid
    else .ok { st with hasContentLength := true, close := true }
  else if eqIgnoreCase h.1 "Connection" then
    let strconn := trimChars h.2.toList
    let conn : Option (List Char) := match st.connection with
      | some x => some (x ++ (", ".toList ++ strconn))
      | none => some strconn
    if (splitChars ',' h.2.toList).any is_close then
      .ok { st with connection := conn, close := true }
    else .ok { st with connection := conn }
  else if eqIgnoreCase h.1 "Host" then
    if st.hostHeader then .error .duplicateHost
    else
      let strhost := trimChars h.2.toList
      if st.host.isNone then
        .ok { st with hostHeader := true, host := some strhost }
      else if st.host != some strhost then
        .ok { st with hostHeader := true, conflictingHost := true }
      else .ok { st with hostHeader := true }
  else if eqIgnoreCase h.1 "Expect" then
    if is_continue h.2.toList then .ok { st with expectContinue := true }
    else .ok st
  else .ok st

/-- `server::headers::scan_headers`: fold the header loop over the
headers, then force `Unsupported` framing for `CONNECT`. -/
def scan_headers (method : String) (version : Nat) (target : RequestTarget)
    (headers : List Header) : Except ScanError ScanState :=
  match headers.foldlM scanStep (initScan version target) with
  | .ok st =>
    .ok (if method == "CONNECT" then { st with body := .unsupported } else st)
  | .error e => .error e

/-! ## Client pipeline engine (`src/client/proto.rs`)

The buffers (`WriteBuf`, `ReadBuf`), write futures and codecs are
opaque tokens: their identities matter to the state machine, their
contents do not.  Flushing an opaque buffer is the identity, so I/O
errors are out of scope of this model.  The behaviour of the
user-supplied codec's `start_write` and of the response parser's `poll`
are inputs (`sw`, `wp`, `oracle`). -/

/-- Opaque `tk_bufstream::WriteBuf` token. -/
abbrev WriteBuf := Nat

/-- Opaque `tk_bufstream::ReadBuf` token. -/
abbrev ReadBuf := Nat

/-- Opaque boxed write-future token. -/
abbrev FutId := Nat

/-- Opaque user codec token. -/
abbrev Codec := Nat

/-- The progress counter shared with the encoder (`Arc<AtomicUsize>`),
modelled by its value; a fresh counter is `0`. -/
abbrev Counter := Nat

/-- `client::Error`, the variants this model can surface. -/
inductive ClientError where
  | closed
  | custom (n : Nat)
deriving DecidableEq, Repr

/-- `OutState`: the writer state. -/
inductive OutState where
  | idle (io : WriteBuf)
  | write (fut : FutId)
  | void
deriving DecidableEq, Repr

/-- `InState`: the reader state; `read` holds the parser built from
`(readBuf, codec, counter)` (the shared close flag stays on `Proto`). -/
inductive InState where
  | idle (io : ReadBuf)
  | read (parser : ReadBuf × Codec × Counter)
  | void
deriving DecidableEq, Repr

/-- `Proto`: one client connection's pipeline engine. -/
structure Proto where
  writing : OutState
  waiting : List (Codec × Counter)
  reading : InState
  close : Bool
deriving DecidableEq, Repr

/-- The encoder handed to `codec.start_write`
(`encoder::new(io, state, close)`). -/
structure EncoderM where
  io : WriteBuf
  counter : Counter
  close : Bool
deriving DecidableEq, Repr

/-- The `OptFuture` returned by `codec.start_write` (`Done` is
documented unreachable and treated as a panic). -/
inductive OptFutureRes where
  | valueOk (done : WriteBuf)
  | valueErr (e : ClientError)
  | future (fut : FutId)
  | doneU
deriving DecidableEq, Repr

/-- The result of `start_send`: `ready` is `Ok(AsyncSink::Ready)`,
`notReady item` is `Ok(AsyncSink::NotReady(item))` (backpressure,
handing the codec back), `error` is `Err(_)` (note the writer is left
`Void` there, as in the source), `panicked` marks `unreachable!()`. -/
inductive SendResult where
  | ready (p : Proto)
  | notReady (item : Codec) (p : Proto)
  | error (e : ClientError) (p : Proto)
  | panicked
deriving DecidableEq, Repr

/-- `Proto::start_send`.  `sw` is the codec's `start_write` behaviour. -/
def start_send (p : Proto) (item : Codec)
    (sw : Codec → EncoderM → OptFutureRes) : SendResult :=
  match p.writing with
  | .void => .panicked
  | .write fut => .notReady item { p with writing := .write fut }
  | .idle io =>
    if p.close then
      .notReady item { p with writing := .idle io }
    else
      match sw item ⟨io, 0, p.close⟩ with
      | .valueOk done =>
        .ready { p with writing := .idle done,
                        waiting := p.waiting ++ [(item, 0)] }
      | .valueErr e => .error e { p with writing := .void }
      | .future fut =>
        .ready { p with writing := .write fut,
                        waiting := p.waiting ++ [(item, 0)] }
      | .doneU => .panicked

/-- One answer of the write future's `poll`. -/
inductive WritePoll where
  | ready (done : WriteBuf)
  | notReady
  | err (e : ClientError)
deriving DecidableEq, Repr

/-- One answer of the response parser's `poll`:
`readyBuf` is `Ready(Some(readBuf))`, `readyNone` is `Ready(None)`
(peer closed mid-response). -/
inductive ParserPoll where
  | notReady
  | readyBuf (io : ReadBuf)
  | readyNone
  | err (e : ClientError)
deriving DecidableEq, Repr

/-- The outcome of the reader loop of `poll_complete`. -/
inductive LoopRes where
  | done (reading : InState) (waiting : List (Codec × Counter))
  | closedErr
  | errored (e : ClientError)
  | panicked
deriving DecidableEq, Repr

/-- The reader loop of `poll_complete`: pop the next exchange when
idle, poll the parser when reading; `oracle` supplies the parser's
successive poll answers (exhaustion means `NotReady`). -/
def readLoop (reading : InState) (waiting : List (Codec × Counter))
    (oracle : List ParserPoll) : LoopRes :=
  match reading with
  | .void => .panicked
  | .idle io =>
    match waiting with
    | [] => .done (.idle io) []
    | (c, s) :: rest => readLoop (.read (io, c, s)) rest oracle
  | .read pr =>
    match oracle with
    | [] => .done (.read pr) waiting
    | ans :: more =>
      match ans with
      | .notReady => .done (.read pr) waiting
      | .readyBuf io => readLoop (.idle io) waiting more
      | .readyNone => .closedErr
      | .err e => .errored e
termination_by
  2 * waiting.length + 2 * oracle.length +
    (match reading with | .read _ => 1 | _ => 0)
decreasing_by
  all_goals simp_wf
  all_goals omega

/-- `Poll<(), Error>` outcome of `poll_complete` together with the new
engine state; `ok_ready` mirrors `Ok(Async::Ready(()))`. -/
inductive PollResult where
  | ok_ready (p : Proto)
  | ok_notReady (p : Proto)
  | error (e : ClientError)
  | panicked
deriving DecidableEq, Repr

/-- The reader half of `poll_complete`. -/
def pollRead (p : Proto) (oracle : List ParserPoll) : PollResult :=
  match readLoop p.reading p.waiting oracle with
  | .done r w => .ok_notReady { p with reading := r, waiting := w }
  | .closedErr => .error .closed
  | .errored e => .error e
  | .panicked => .panicked

/-- `Proto::poll_complete`: advance the writer (flushing an opaque
buffer is the identity; `wp` answers the write future's poll), then run
the reader loop; the source never returns `Ok(Async::Ready(()))`. -/
def poll_complete (p : Proto) (wp : WritePoll)
    (oracle : List ParserPoll) : PollResult :=
  match p.writing with
  | .void => .panicked
  | .idle io => pollRead { p with writing := .idle io } oracle
  | .write fut =>
    match wp with
    | .err e => .error e
    | .ready done => pollRead { p with writing := .idle done } oracle
    | .notReady => pollRead { p with writing := .write fut } oracle

/-! ## WebSocket handshake (`src/server/websocket.rs`)

SHA-1 is computed over byte lists with 32-bit arithmetic made explicit
(`% 2 ^ 32`); header values are ASCII, so a string's bytes are its
characters' code points. -/

/-- Truncation to 32 bits. -/
def u32 (n : Nat) : Nat := n % 4294967296

/-- 32-bit left rotation. -/
def rotl (k x : Nat) : Nat := u32 ((x <<< k) ||| (x >>> (32 - k)))

/-- Big-endian 8-byte encoding of a (64-bit) number. -/
def be64 (n : Nat) : List Nat :=
  [(n >>> 56) % 256, (n >>> 48) % 256, (n >>> 40) % 256, (n >>> 32) % 256,
   (n >>> 24) % 256, (n >>> 16) % 256, (n >>> 8) % 256, n % 256]

/-- Big-endian 4-byte encoding of a 32-bit number. -/
def be32 (n : Nat) : List Nat :=
  [(n >>> 24) % 256, (n >>> 16) % 256, (n >>> 8) % 256, n % 256]

/-- SHA-1 message padding: `0x80`, zeros to 56 mod 64, 64-bit bit length. -/
def sha1Pad (msg : List Nat) : List Nat :=
  let len := msg.length
  let k := (64 - ((len + 9) % 64)) % 64
  msg ++ [0x80] ++ List.replicate k 0 ++ be64 (8 * len)

/-- Split a byte list into 64-byte blocks (`fuel` bounds the number of
bytes still to be consumed, so recursion is structural). -/
def chunk64Go : Nat → List Nat → List (List Nat)
  | 0, _ => []
  | fuel + 1, l => if l.isEmpty then [] else l.take 64 :: chunk64Go fuel (l.drop 64)

/-- Split a byte list into 64-byte blocks. -/
def chunk64 (l : List Nat) : List (List Nat) := chunk64Go l.length l

/-- The 16 initial 32-bit words of one 64-byte block. -/
def wordsOf (block : List Nat) : List Nat :=
  (List.range 16).map (fun i =>
    (block.getD (4 * i) 0 <<< 24) ||| (block.getD (4 * i + 1) 0 <<< 16) |||
    (block.getD (4 * i + 2) 0 <<< 8) ||| block.getD (4 * i + 3) 0)

/-- One step of the message-schedule extension:
`w[i] = rotl1 (w[i-3] ^ w[i-8] ^ w[i-14] ^ w[i-16])`. -/
def extendWGo : Nat → List Nat → List Nat
  | 0, w => w
  | k + 1, w =>
    extendWGo k (w ++ [rotl 1 (w.getD (w.length - 3) 0 ^^^ w.getD (w.length - 8) 0
      ^^^ w.getD (w.length - 14) 0 ^^^ w.getD (w.length - 16) 0)])

/-- Extend the 16-word message schedule to 80 words. -/
def extendW (w : List Nat) : List Nat := extendWGo (80 - w.length) w

/-- The SHA-1 round function. -/
def sha1F (i b c d : Nat) : Nat :=
  if i < 20 then (b &&& c) ||| ((b ^^^ 0xFFFFFFFF) &&& d)
  else if i < 40 then b ^^^ c ^^^ d
  else if i < 60 then (b &&& c) ||| (b &&& d) ||| (c &&& d)
  else b ^^^ c ^^^ d

/-- The SHA-1 round constants. -/
def sha1K (i : Nat) : Nat :=
  if i < 20 then 0x5A827999
  else if i < 40 then 0x6ED9EBA1
  else if i < 60 then 0x8F1BBCDC
  else 0xCA62C1D6

/-- One SHA-1 round over the running state `(a, b, c, d, e)`. -/
def sha1Round (w : List Nat) (st : Nat × Nat × Nat × Nat × Nat) (i : Nat) :
    Nat × Nat × Nat × Nat × Nat :=
  let (a, b, c, d, e) := st
  (u32 (rotl 5 a + sha1F i b c d + e + sha1K i + w.getD i 0),
   a, rotl 30 b, c, d)

/-- Compress one 64-byte block into the hash state. -/
def sha1Block (h : Nat × Nat × Nat × Nat × Nat) (block : List Nat) :
    Nat × Nat × Nat × Nat × Nat :=
  let w := extendW (wordsOf block)
  let (a, b, c, d, e) := (List.range 80).foldl (sha1Round w) h
  (u32 (h.1 + a), u32 (h.2.1 + b), u32 (h.2.2.1 + c),
   u32 (h.2.2.2.1 + d), u32 (h.2.2.2.2 + e))

/-- SHA-1 of a byte list, as the 20-byte digest. -/
def sha1 (msg : List Nat) : List Nat :=
  let f := (chunk64 (sha1Pad msg)).foldl sha1Block
    (0x67452301, 0xEFCDAB89, 0x98BADCFE, 0x10325476, 0xC3D2E1F0)
  be32 f.1 ++ be32 f.2.1 ++ be32 f.2.2.1 ++ be32 f.2.2.2.1 ++ be32 f.2.2.2.2

/-- The base64 alphabet of the `Display` impl for `WebsocketAccept`. -/
def wsAcceptChars : List Char :=
  "ABCDEFGHIJKLMNOPQRSTUVWXYZabcdefghijklmnopqrstuvwxyz0123456789+/".toList

/-- The `Display` impl for `WebsocketAccept`: 6 groups of 3 digest bytes
into 4 characters each, then the last 2 bytes into 3 characters and
`=`. -/
def wsAcceptDisplay (d : List Nat) : List Char :=
  (((List.range 6).map (fun i =>
    let n := (d.getD (i * 3) 0 <<< 16) ||| (d.getD (i * 3 + 1) 0 <<< 8) |||
      d.getD (i * 3 + 2) 0
    [wsAcceptChars.getD ((n >>> 18) &&& 63) 'A',
     wsAcceptChars.getD ((n >>> 12) &&& 63) 'A',
     wsAcceptChars.getD ((n >>> 6) &&& 63) 'A',
     wsAcceptChars.getD (n &&& 63) 'A'])).flatten) ++
  (let n := (d.getD 18 0 <<< 16) ||| (d.getD 19 0 <<< 8)
   [wsAcceptChars.getD ((n >>> 18) &&& 63) 'A',
    wsAcceptChars.getD ((n >>> 12) &&& 63) 'A',
    wsAcceptChars.getD ((n >>> 6) &&& 63) 'A', '='])

/-- The accept value as a string. -/
def wsAcceptString (d : List Nat) : String := ⟨wsAcceptDisplay d⟩

/-- The RFC 6455 GUID from the source. -/
def wsGUID : String := "258EAFA5-E914-47DA-95CA-C5AB0DC85B11"

/-- The bytes of an ASCII string. -/
def strBytes (s : String) : List Nat := s.toList.map Char.toNat

/-- `websocket::bytes_trim`: strip `\r`, `\n`, space and tab bytes from
both ends. -/
def isWsByte (b : Nat) : Bool := b == 13 || b == 10 || b == 32 || b == 9

/-- `websocket::bytes_trim`. -/
def bytesTrim (l : List Nat) : List Nat :=
  ((l.dropWhile isWsByte).reverse.dropWhile isWsByte).reverse

/-- The borrowed `Head` built by `parse_headers`. -/
structure Head where
  method : String
  raw_target : String
  target : RequestTarget
  host : Option (List Char)
  conflicting_host : Bool
  version : Nat
  headers : List Header
  body_kind : BodyKind
  connection_close : Bool
  connection_header : Option (List Char)
deriving DecidableEq, Repr

/-- `Head::has_body`: true unless the framing is `Fixed(0)`. -/
def hasBody (req : Head) : Bool := req.body_kind != .fixed 0

/-- The filter of `HeaderIter` (`Head::headers`): strips `Connection`,
`Transfer-Encoding`, `Content-Length`, `Upgrade` and `Host`, plus any
header enumerated in the `Connection` header value. -/
def headerVisible (req : Head) (h : Header) : Bool :=
  !(eqIgnoreCase h.1 "Connection" || eqIgnoreCase h.1 "Transfer-Encoding" ||
    eqIgnoreCase h.1 "Content-Length" || eqIgnoreCase h.1 "Upgrade" ||
    eqIgnoreCase h.1 "Host") &&
  !(match req.connection_header with
    | some conn =>
      (splitChars ',' conn).any (fun tok =>
        eqIgnoreCaseL (trimChars tok) h.1.toList)
    | none => false)

/-- `Head::headers`: the headers surviving `HeaderIter`. -/
def headersIter (req : Head) : List Header :=
  req.headers.filter (headerVisible req)

/-- `WebsocketHandshake` (the accept digest plus token lists). -/
structure WebsocketHandshake where
  accept : List Nat
  protocols : List (List Char)
  extensions : List (List Char)
deriving DecidableEq, Repr

/-- The loop state of `get_handshake`. -/
structure HsState where
  upgrade : Bool
  version : Bool
  accept : Option (List Nat)
  protocols : List (List Char)
  extensions : List (List Char)
deriving DecidableEq, Repr

/-- The two early exits of the `get_handshake` loop: `Err(())` and
`Ok(None)` (an `Upgrade` header that is not `websocket`). -/
inductive HsExit where
  | err
  | notWs
deriving DecidableEq, Repr

/-- The non-empty trimmed comma tokens of a protocol/extension value. -/
def hsTokens (v : String) : List (List Char) :=
  ((splitChars ',' v.toList).map trimChars).filter (fun x => 0 < x.length)

/-- One iteration of the `get_handshake` header loop. -/
def hsStep (st : HsState) (h : Header) : Except HsExit HsState :=
  if eqIgnoreCase h.1 "Sec-WebSocket-Key" then
    if st.accept.isSome then .error .err
    else .ok { st with
      accept := some (sha1 (bytesTrim (strBytes h.2) ++ strBytes wsGUID)) }
  else if eqIgnoreCase h.1 "Sec-WebSocket-Version" then
    if bytesTrim (strBytes h.2) != strBytes "13" then .error .err
    else .ok { st with version := true }
  else if eqIgnoreCase h.1 "Sec-WebSocket-Protocol" then
    .ok { st with protocols := st.protocols ++ hsTokens h.2 }
  else if eqIgnoreCase h.1 "Sec-WebSocket-Extensions" then
    .ok { st with extensions := st.extensions ++ hsTokens h.2 }
  else if eqIgnoreCase h.1 "Upgrade" then
    if !eqIgnoreCase h.2 "websocket" then .error .notWs
    else .ok { st with upgrade := true }
  else .ok st

/-- `websocket::get_handshake` over a parsed `Head`. -/
def get_handshake (req : Head) : Except Unit (Option WebsocketHandshake) :=
  let conn_upgrade := req.connection_header.map (fun x =>
    (splitChars ',' x).any (fun tok => eqIgnoreCaseL tok "upgrade".toList))
  if !(conn_upgrade.getD false) then .ok none
  else
    match (headersIter req).foldlM hsStep ⟨false, false, none, [], []⟩ with
    | .error .err => .error ()
    | .error .notWs => .ok none
    | .ok st =>
      if hasBody req then .error ()
      else if !st.upgrade then .error ()
      else if !st.version || st.accept.isNone then .error ()
      else .ok (some ⟨st.accept.getD [], st.protocols, st.extensions⟩)

/-- The `Head` construction of `parse_headers` on a complete preamble
(after `scan_headers` succeeded). -/
def buildHead (method raw_target : String) (target : RequestTarget)
    (version : Nat) (headers : List Header) : Except ScanError Head :=
  match scan_headers method version target headers with
  | .error e => .error e
  | .ok cfg => .ok
    { method := method
      raw_target := raw_target
      target := target
      host := cfg.host
      conflicting_host := cfg.conflictingHost
      version := version
      headers := headers
      body_kind := cfg.body
      connection_close := cfg.close || (version == 0)
      connection_header := cfg.connection }

/-- The headers of spec scenario S5 (the RFC 6455 sample handshake). -/
def s5Headers : List Header :=
  [("Host", "server.example.com"),
   ("Upgrade", "websocket"),
   ("Connection", "Upgrade"),
   ("Sec-WebSocket-Key", "dGhlIHNhbXBsZSBub25jZQ=="),
   ("Sec-WebSocket-Version", "13")]

end TkHttp

deriving instance DecidableEq for Except

namespace TkHttp

end TkHttp

namespace TkHttp

theorem mapIdxFrom_length (f : Nat → Nat → Nat) (i : Nat) (l : List Nat) :
    (mapIdxFrom f i l).length = l.length := by
  induction l generalizing i with
  | nil => rfl
  | cons b rest ih => simp [mapIdxFrom, ih]

theorem getElem_mapIdxFrom (f : Nat → Nat → Nat) (i : Nat) (l : List Nat)
    (j : Nat) (hj : j < l.length) (hj' : j < (mapIdxFrom f i l).length) :
    (mapIdxFrom f i l)[j] = f (i + j) (l[j]) := by
  induction l generalizing i j with
  | nil => simp at hj
  | cons b rest ih =>
    cases j with
    | zero => simp [mapIdxFrom]
    | succ j =>
      simp only [mapIdxFrom, List.getElem_cons_succ]
      rw [ih (i + 1) j (by simpa using hj) (by simpa [mapIdxFrom_length] using hj)]
      ring_nf

theorem unmask_length (buf : List Nat) (start size : Nat) :
    (unmask buf start size).length = buf.length := by
  simp [unmask, mapIdxFrom_length]

theorem unmask_slice (buf : List Nat) (start size : Nat)
    (h : start + size ≤ buf.length) :
    ((unmask buf start size).drop start).take size =
      (List.range size).map (fun i =>
        buf.getD (start + i) 0 ^^^ buf.getD (start - 4 + i % 4) 0) := by
  apply List.ext_getElem
  · simp [unmask_length]; omega
  · intro i h1 h2
    have hi : i < size := by
      have := h1; simp [unmask_length] at this; omega
    have hsi : start + i < buf.length := by omega
    have hd : ∀ (hh : start + i < (unmask buf start size).length),
        (unmask buf start size)[start + i] =
          buf[start + i] ^^^ buf.getD (start - 4 + i % 4) 0 := by
      intro hh
      simp only [unmask]
      rw [getElem_mapIdxFrom _ 0 buf (start + i) hsi (by simpa [mapIdxFrom_length] using hsi)]
      simp only [Nat.zero_add]
      have : (decide (start ≤ start + i) && decide (start + i < start + size)) = true := by
        simp; omega
      simp only [this, if_true]
      congr 2
      omega
    rw [List.getElem_take, List.getElem_drop, hd]
    simp only [List.getElem_map, List.getElem_range]
    rw [List.getD_eq_getElem buf 0 hsi]

theorem wsDispatch_frame_consumed (op : Nat) (data : List Nat) (c : Nat)
    (f : Frame) (n : Nat) (h : wsDispatch op data c = .frame f n) : n = c := by
  unfold wsDispatch at h
  split_ifs at h
  all_goals simp_all

theorem wsDispatch_panic (op : Nat) (data : List Nat) (c : Nat)
    (h : wsDispatch op data c = .panic) : op = 8 ∧ data.length < 2 := by
  unfold wsDispatch at h
  split_ifs at h
  all_goals simp_all

end TkHttp

namespace TkHttp

theorem c2_try :
    ∀ (buf : List Nat) (limit size fsize : Nat),
      sizeFsize buf = some (size, fsize) →
      2 ≤ buf.length →
      size ≤ limit →
      ((buf.getD 0 0 &&& 0x80) != 0) = true →
      ((buf.getD 1 0 &&& 0x80) != 0) = true →
      fsize + 4 + size ≤ buf.length →
      parse_frame buf limit true =
        wsDispatch (buf.getD 0 0 &&& 0x0F)
          ((List.range size).map (fun i =>
             buf.getD (fsize + 4 + i) 0 ^^^ buf.getD (fsize + i % 4) 0))
          (fsize + 4 + size) := by
  intro buf limit size fsize hsf hlen hlim hfin hmask hcomp
  unfold parse_frame
  rw [if_neg (by omega), hsf]
  simp only [gt_iff_lt]
  rw [if_neg (by omega)]
  simp only [maskLen, eq_self_iff_true, if_true, hfin, hmask, Bool.not_true,
    Bool.false_eq_true, if_false, bne_self_eq_false]
  rw [if_neg (by omega)]
  rw [unmask_slice buf (fsize + 4) size (by omega)]
  simp only [Nat.add_sub_cancel]

end TkHttp

namespace TkHttp

theorem c7_try :
    ∀ (buf : List Nat) (limit : Nat) (masked : Bool) (size fsize : Nat),
      2 ≤ buf.length →
      sizeFsize buf = some (size, fsize) →
      limit < size →
      parse_frame buf limit masked = .err .tooLong := by
  intro buf limit masked size fsize hlen hsf hlim
  unfold parse_frame
  rw [if_neg (by omega), hsf]
  simp only [gt_iff_lt]
  rw [if_pos (by omega)]

theorem c10_consumed :
    ∀ (buf : List Nat) (limit : Nat) (masked : Bool) (f : Frame) (n : Nat),
      parse_frame buf limit masked = .frame f n → n ≤ buf.length := by
  intro buf limit masked f n h
  simp only [parse_frame] at h
  split at h
  · exact absurd h (by simp)
  split at h
  · exact absurd h (by simp)
  rename_i hlen2 size fsize hsf
  split at h
  · exact absurd h (by simp)
  split at h
  · exact absurd h (by simp)
  rename_i hlim hcomp
  split at h
  · exact absurd h (by simp)
  split at h
  · exact absurd h (by simp)
  have := wsDispatch_frame_consumed _ _ _ _ _ h
  omega

theorem c10_panic :
    ∀ (buf : List Nat) (limit : Nat) (masked : Bool),
      parse_frame buf limit masked = .panic →
      ∃ size fsize, sizeFsize buf = some (size, fsize) ∧
        buf.getD 0 0 &&& 0x0F = 8 ∧ size < 2 ∧ size ≤ limit ∧
        fsize + maskLen masked + size ≤ buf.length := by
  intro buf limit masked h
  simp only [parse_frame] at h
  split at h
  · exact absurd h (by simp)
  split at h
  · exact absurd h (by simp)
  rename_i hlen2 size fsize hsf
  split at h
  · exact absurd h (by simp)
  split at h
  · exact absurd h (by simp)
  rename_i hlim hcomp
  split at h
  · exact absurd h (by simp)
  split at h
  · exact absurd h (by simp)
  have hp := wsDispatch_panic _ _ _ h
  refine ⟨size, fsize, hsf, hp.1 ▸ rfl, ?_, by omega, by omega⟩
  have hlen : (List.take size (List.drop (fsize + maskLen masked)
      (if ((buf.getD 1 0 &&& 128 != 0) : Bool) = true
        then unmask buf (fsize + maskLen masked) size
        else buf))).length = size := by
    split
    · simp [unmask_length]; omega
    · simp; omega
  omega

end TkHttp

namespace TkHttp

theorem and127 (n : Nat) (h : n ≤ 125) : n &&& 127 = n := by
  rw [Nat.and_pow_two_sub_one_eq_mod n 7]
  omega

theorem and128_zero (n : Nat) (h : n < 128) : n &&& 128 = 0 := by
  have ht : n.testBit 7 = false := Nat.testBit_lt_two_pow h
  have := Nat.and_two_pow n 7
  simpa [ht] using this

theorem or128_and15 (op : Nat) (h : op < 16) : (op ||| 128) &&& 15 = op := by
  interval_cases op <;> decide

theorem or128_fin (op : Nat) (h : op < 16) : ((op ||| 128) &&& 128 != 0) = true := by
  interval_cases op <;> decide

theorem parse_write_small (op : Nat) (data : List Nat) (limit : Nat)
    (hop : op < 16) (hsmall : data.length ≤ 125) (hlim : data.length ≤ limit) :
    parse_frame (write_packet op data false []) limit false
      = wsDispatch op data (2 + data.length) := by
  have hw : write_packet op data false [] = (op ||| 128) :: (data.length ||| 0) :: data := by
    simp [write_packet, hsmall]
  rw [hw, Nat.or_zero]
  unfold parse_frame
  rw [if_neg (by simp)]
  have hsf : sizeFsize ((op ||| 128) :: data.length :: data) = some (data.length, 2) := by
    unfold sizeFsize
    simp only [List.getD_cons_succ, List.getD_cons_zero]
    rw [and127 _ hsmall]
    rw [if_neg (by simp; omega), if_neg (by simp; omega)]
  rw [hsf]
  simp only [gt_iff_lt]
  rw [if_neg (by omega)]
  simp only [maskLen]
  rw [if_neg (by simp; omega)]
  simp only [List.getD_cons_succ, List.getD_cons_zero]
  simp only [or128_fin op hop, and128_zero data.length (by omega), or128_and15 op hop]
  norm_num

theorem parse_write_mid (op : Nat) (data : List Nat) (limit : Nat)
    (hop : op < 16) (h126 : 126 ≤ data.length) (h65535 : data.length ≤ 65535)
    (hlim : data.length ≤ limit) :
    parse_frame (write_packet op data false []) limit false
      = wsDispatch op data (4 + data.length) := by
  have hw : write_packet op data false []
      = (op ||| 128) :: 126 :: lenByte data.length 8 :: lenByte data.length 0 :: data := by
    unfold write_packet
    simp only [Bool.false_eq_true, if_false]
    rw [if_neg (by omega), if_pos (by omega)]
    simp
  rw [hw]
  unfold parse_frame
  rw [if_neg (by simp)]
  have hsize : readU16 (lenByte data.length 8) (lenByte data.length 0) = data.length := by
    simp [readU16, lenByte, Nat.shiftRight_eq_div_pow]
    omega
  have hsf : sizeFsize ((op ||| 128) :: 126 :: lenByte data.length 8 ::
      lenByte data.length 0 :: data) = some (data.length, 4) := by
    unfold sizeFsize
    simp only [List.getD_cons_succ, List.getD_cons_zero]
    rw [if_pos (by decide)]
    rw [if_neg (by simp), hsize]
  rw [hsf]
  simp only [gt_iff_lt]
  rw [if_neg (by omega)]
  simp only [maskLen]
  rw [if_neg (by simp; omega)]
  simp only [List.getD_cons_succ, List.getD_cons_zero]
  simp only [or128_fin op hop, or128_and15 op hop,
    show (126 &&& 128 : Nat) = 0 from by decide]
  norm_num

theorem parse_write_big (op : Nat) (data : List Nat) (limit : Nat)
    (hop : op < 16) (hbig : 65535 < data.length) (h64 : data.length < 2 ^ 64)
    (hlim : data.length ≤ limit) :
    parse_frame (write_packet op data false []) limit false
      = wsDispatch op data (10 + data.length) := by
  have hw : write_packet op data false []
      = (op ||| 128) :: 127 :: lenByte data.length 56 :: lenByte data.length 48 ::
        lenByte data.length 40 :: lenByte data.length 32 :: lenByte data.length 24 ::
        lenByte data.length 16 :: lenByte data.length 8 :: lenByte data.length 0 :: data := by
    unfold write_packet
    simp only [Bool.false_eq_true, if_false]
    rw [if_neg (by omega), if_neg (by omega)]
    simp
  rw [hw]
  unfold parse_frame
  rw [if_neg (by simp)]
  have hsize : readU64at2 ((op ||| 128) :: 127 :: lenByte data.length 56 ::
      lenByte data.length 48 :: lenByte data.length 40 :: lenByte data.length 32 ::
      lenByte data.length 24 :: lenByte data.length 16 :: lenByte data.length 8 ::
      lenByte data.length 0 :: data) = data.length := by
    have hr : List.range 8 = [0, 1, 2, 3, 4, 5, 6, 7] := rfl
    simp only [readU64at2, hr, List.foldl]
    norm_num [List.getD_cons_succ, List.getD_cons_zero]
    simp only [lenByte, Nat.shiftRight_eq_div_pow]
    omega
  have hsf : sizeFsize ((op ||| 128) :: 127 :: lenByte data.length 56 ::
      lenByte data.length 48 :: lenByte data.length 40 :: lenByte data.length 32 ::
      lenByte data.length 24 :: lenByte data.length 16 :: lenByte data.length 8 ::
      lenByte data.length 0 :: data) = some (data.length, 10) := by
    unfold sizeFsize
    simp only [List.getD_cons_succ, List.getD_cons_zero]
    rw [if_neg (by decide), if_pos (by decide)]
    rw [if_neg (by simp), hsize]
  rw [hsf]
  simp only [gt_iff_lt]
  rw [if_neg (by omega)]
  simp only [maskLen]
  rw [if_neg (by simp; omega)]
  simp only [List.getD_cons_succ, List.getD_cons_zero]
  simp only [or128_fin op hop, or128_and15 op hop,
    show (127 &&& 128 : Nat) = 0 from by decide]
  norm_num

theorem write_packet_getD0 (op : Nat) (data : List Nat) :
    (write_packet op data false []).getD 0 0 = op ||| 128 := by
  unfold write_packet
  simp only [Bool.false_eq_true, if_false]
  split_ifs <;> simp

theorem write_packet_length (op : Nat) (data : List Nat) :
    (write_packet op data false []).length =
      (if data.length ≤ 125 then 2 else if data.length ≤ 65535 then 4 else 10)
        + data.length := by
  unfold write_packet
  simp only [Bool.false_eq_true, if_false]
  split_ifs <;> simp <;> omega

theorem parse_write_packet (op : Nat) (data : List Nat) (limit : Nat)
    (hop : op < 16) (hlim : data.length ≤ limit) (h64 : limit < 2 ^ 64) :
    parse_frame (write_packet op data false []) limit false
      = wsDispatch op data ((write_packet op data false []).length) := by
  rw [write_packet_length]
  by_cases h1 : data.length ≤ 125
  · rw [if_pos h1]
    exact parse_write_small op data limit hop h1 hlim
  · by_cases h2 : data.length ≤ 65535
    · rw [if_neg h1, if_pos h2]
      exact parse_write_mid op data limit hop (by omega) h2 hlim
    · rw [if_neg h1, if_neg h2]
      exact parse_write_big op data limit hop (by omega) (by omega) hlim

theorem wsDispatch_frameWF (f : Frame) (c : Nat) (hwf : frameWF f = true) :
    wsDispatch (frameOpcode f) (framePayload f) c = .frame f c := by
  cases f with
  | ping d => simp [wsDispatch, frameOpcode, framePayload]
  | pong d => simp [wsDispatch, frameOpcode, framePayload]
  | text d => simp [wsDispatch, frameOpcode, framePayload, frameWF] at hwf ⊢; exact hwf
  | binary d => simp [wsDispatch, frameOpcode, framePayload]
  | close code reason =>
    simp [frameWF] at hwf
    simp [wsDispatch, frameOpcode, framePayload, readU16, hwf.2]
    rw [if_neg (by omega)]
    congr 2
    omega

/-- C2: for every buffer holding one complete masked frame within the
size limit, `parse_frame` with `masked = true` unmasks in place, so the
payload handed to the opcode dispatch equals the original masked payload
bytes XOR-ed with `mask_key[i mod 4]`; and on the input bytes
`81 85 37 fa 21 3d 7f 9f 4d 51 58` it returns `Text("Hello")` with 11
bytes consumed. -/
theorem c2_parse_frame_unmasks_xor :
    (∀ (buf : List Nat) (limit size fsize : Nat),
      sizeFsize buf = some (size, fsize) →
      2 ≤ buf.length →
      size ≤ limit →
      ((buf.getD 0 0 &&& 0x80) != 0) = true →
      ((buf.getD 1 0 &&& 0x80) != 0) = true →
      fsize + 4 + size ≤ buf.length →
      parse_frame buf limit true =
        wsDispatch (buf.getD 0 0 &&& 0x0F)
          ((List.range size).map (fun i =>
             buf.getD (fsize + 4 + i) 0 ^^^ buf.getD (fsize + i % 4) 0))
          (fsize + 4 + size))
    ∧ parse_frame [0x81, 0x85, 0x37, 0xfa, 0x21, 0x3d, 0x7f, 0x9f, 0x4d, 0x51, 0x58]
        125 true = .frame (.text [72, 101, 108, 108, 111]) 11 :=
  ⟨c2_try, by decide⟩

theorem c2_parse_frame_unmasks_xor_witness :
    parse_frame [0x81, 0x85, 0x37, 0xfa, 0x21, 0x3d, 0x7f, 0x9f, 0x4d, 0x51, 0x58]
        125 true =
      wsDispatch
        (([0x81, 0x85, 0x37, 0xfa, 0x21, 0x3d, 0x7f, 0x9f, 0x4d, 0x51, 0x58].getD 0 0)
          &&& 0x0F)
        ((List.range 5).map (fun i =>
           [0x81, 0x85, 0x37, 0xfa, 0x21, 0x3d, 0x7f, 0x9f, 0x4d, 0x51,
             0x58].getD (2 + 4 + i) 0 ^^^
           [0x81, 0x85, 0x37, 0xfa, 0x21, 0x3d, 0x7f, 0x9f, 0x4d, 0x51,
             0x58].getD (2 + i % 4) 0))
        (2 + 4 + 5) :=
  c2_parse_frame_unmasks_xor.1 _ 125 5 2 (by decide) (by decide) (by decide)
    (by decide) (by decide) (by decide)

/-- C4: serializing a well-formed frame with `write_packet` (mask off)
and re-parsing yields an equal frame with consumed count equal to the
emitted byte count; the first byte is `opcode | 0x80` and the minimal of
the three length encodings is used. -/
theorem c4_write_parse_roundtrip :
    ∀ (f : Frame) (limit : Nat), frameWF f = true →
      (framePayload f).length ≤ limit → limit < 2 ^ 64 →
      parse_frame (write_packet (frameOpcode f) (framePayload f) false []) limit false
        = .frame f ((write_packet (frameOpcode f) (framePayload f) false []).length)
      ∧ (write_packet (frameOpcode f) (framePayload f) false []).getD 0 0
          = frameOpcode f ||| 0x80
      ∧ (write_packet (frameOpcode f) (framePayload f) false []).length =
          (if (framePayload f).length ≤ 125 then 2
           else if (framePayload f).length ≤ 65535 then 4 else 10)
            + (framePayload f).length := by
  intro f limit hwf hlim h64
  have hop : frameOpcode f < 16 := by cases f <;> simp [frameOpcode]
  refine ⟨?_, write_packet_getD0 _ _, write_packet_length _ _⟩
  rw [parse_write_packet _ _ _ hop hlim h64, wsDispatch_frameWF f _ hwf]

theorem c4_write_parse_roundtrip_witness :
    frameWF (.close 1000 [72, 105]) = true ∧
    (framePayload (.close 1000 [72, 105])).length ≤ 125 ∧ (125 : Nat) < 2 ^ 64 ∧
    (parse_frame (write_packet (frameOpcode (.close 1000 [72, 105]))
        (framePayload (.close 1000 [72, 105])) false []) 125 false
      = .frame (.close 1000 [72, 105])
          ((write_packet (frameOpcode (.close 1000 [72, 105]))
            (framePayload (.close 1000 [72, 105])) false []).length)) :=
  ⟨by decide, by decide, by decide,
   (c4_write_parse_roundtrip (.close 1000 [72, 105]) 125 (by decide) (by decide)
     (by decide)).1⟩

/-- C7: whenever the buffer holds enough bytes to decode the declared
payload length and that length exceeds the limit, `parse_frame` returns
`TooLong` — the limit check precedes the completeness check. -/
theorem c7_toolong_before_completeness :
    ∀ (buf : List Nat) (limit : Nat) (masked : Bool) (size fsize : Nat),
      2 ≤ buf.length →
      sizeFsize buf = some (size, fsize) →
      limit < size →
      parse_frame buf limit masked = .err .tooLong :=
  c7_try

theorem c7_toolong_before_completeness_witness :
    parse_frame [0x81, 127, 0, 0, 0, 1, 0, 0, 0, 0] 125 false = .err .tooLong :=
  c7_toolong_before_completeness _ 125 false 4294967296 10 (by decide) (by decide)
    (by decide)

/-- C10 (counterexample): a Close frame with empty payload makes
`parse_frame` slice out of bounds (`&data[..2]`), refuting totality. -/
theorem c10_totality_counterexample :
    parse_frame [0x88, 0x00] 125 false = .panic := by decide

/-- C10 (amended): `parse_frame` never accesses out of bounds and the
consumed count never exceeds the buffer length, except for complete
Close frames (opcode 0x8) whose payload length is below 2, where
`&data[..2]` is out of bounds (a Rust panic). -/
theorem c10_parse_frame_totality_amended :
    ∀ (buf : List Nat) (limit : Nat) (masked : Bool),
      (∀ (f : Frame) (n : Nat),
        parse_frame buf limit masked = .frame f n → n ≤ buf.length) ∧
      (parse_frame buf limit masked = .panic →
        ∃ size fsize, sizeFsize buf = some (size, fsize) ∧
          buf.getD 0 0 &&& 0x0F = 8 ∧ size < 2 ∧ size ≤ limit ∧
          fsize + maskLen masked + size ≤ buf.length) :=
  fun buf limit masked => ⟨c10_consumed buf limit masked, c10_panic buf limit masked⟩

theorem c10_parse_frame_totality_amended_witness :
    3 ≤ ([0x81, 1, 65] : List Nat).length ∧
    (∃ size fsize, sizeFsize [0x88, 0x00] = some (size, fsize) ∧
      ([0x88, 0x00] : List Nat).getD 0 0 &&& 0x0F = 8 ∧ size < 2 ∧ size ≤ 125 ∧
      fsize + maskLen false + size ≤ ([0x88, 0x00] : List Nat).length) :=
  ⟨(c10_parse_frame_totality_amended [0x81, 1, 65] 125 false).1 (.text [65]) 3
     (by decide),
   (c10_parse_frame_totality_amended [0x88, 0x00] 125 false).2 (by decide)⟩

end TkHttp

namespace TkHttp

/-- Predicate: the header name equals `nm` ASCII-case-insensitively. -/
def isHdr (nm : String) (h : Header) : Bool := eqIgnoreCase h.1 nm

theorem eqIgnoreCase_trans_concrete (s a b : String)
    (ha : eqIgnoreCase s a = true) (hb : eqIgnoreCase s b = true) :
    a.toList.map lowerChar = b.toList.map lowerChar := by
  simp [eqIgnoreCase, eqIgnoreCaseL, String.toList] at ha hb ⊢
  rw [← ha, ← hb]

theorem scanStep_ok_hasCL_mono (st st' : ScanState) (h : Header)
    (hs : scanStep st h = .ok st') (hcl : st.hasContentLength = true) :
    st'.hasContentLength = true := by
  unfold scanStep at hs
  split_ifs at hs
  all_goals (repeat' split at hs)
  all_goals (try simp at hs)
  all_goals (repeat' split at hs)
  all_goals (try simp at hs)
  all_goals (try subst hs)
  all_goals simp_all

theorem scanStep_ok_hasCL_eq (st st' : ScanState) (h : Header)
    (hs : scanStep st h = .ok st')
    (hn : eqIgnoreCase h.1 "Content-Length" = false) :
    st'.hasContentLength = st.hasContentLength := by
  unfold scanStep at hs
  split_ifs at hs
  all_goals (repeat' split at hs)
  all_goals (try simp at hs)
  all_goals (repeat' split at hs)
  all_goals (try simp at hs)
  all_goals (try subst hs)
  all_goals simp_all

theorem scanStep_cl_dup (st : ScanState) (h : Header)
    (hn : eqIgnoreCase h.1 "Content-Length" = true)
    (hcl : st.hasContentLength = true) :
    scanStep st h = .error .duplicateContentLength := by
  have hne : eqIgnoreCase h.1 "Transfer-Encoding" = false := by
    by_contra hc
    have := eqIgnoreCase_trans_concrete h.1 "Transfer-Encoding" "Content-Length"
      (by simpa using hc) hn
    simp at this
  unfold scanStep
  simp [hne, hn, hcl]

theorem scanStep_cl_ok (st st' : ScanState) (h : Header)
    (hn : eqIgnoreCase h.1 "Content-Length" = true)
    (hs : scanStep st h = .ok st') :
    st'.hasContentLength = true := by
  have hne : eqIgnoreCase h.1 "Transfer-Encoding" = false := by
    by_contra hc
    have := eqIgnoreCase_trans_concrete h.1 "Transfer-Encoding" "Content-Length"
      (by simpa using hc) hn
    simp at this
  unfold scanStep at hs
  split_ifs at hs
  all_goals (repeat' split at hs)
  all_goals (try simp at hs)
  all_goals (try subst hs)
  all_goals simp_all

theorem eqIgnoreCase_excl (s a b : String)
    (hab : a.toList.map lowerChar ≠ b.toList.map lowerChar)
    (ha : eqIgnoreCase s a = true) : eqIgnoreCase s b = false := by
  by_contra hc
  exact hab (eqIgnoreCase_trans_concrete s a b ha (by simpa using hc))

theorem scanStep_ok_host_some (st st' : ScanState) (h : Header) (a : List Char)
    (hs : scanStep st h = .ok st') (hh : st.host = some a) :
    st'.host = some a := by
  unfold scanStep at hs
  split_ifs at hs
  all_goals (repeat' split at hs)
  all_goals (try simp at hs)
  all_goals (repeat' split at hs)
  all_goals (try simp at hs)
  all_goals (try subst hs)
  all_goals simp_all

theorem scanStep_ok_host_eq (st st' : ScanState) (h : Header)
    (hs : scanStep st h = .ok st') (hn : eqIgnoreCase h.1 "Host" = false) :
    st'.host = st.host ∧ st'.hostHeader = st.hostHeader := by
  unfold scanStep at hs
  split_ifs at hs
  all_goals (repeat' split at hs)
  all_goals (try simp at hs)
  all_goals (repeat' split at hs)
  all_goals (try simp at hs)
  all_goals (try subst hs)
  all_goals simp_all

theorem scanStep_ok_hostHeader_set (st st' : ScanState) (h : Header)
    (hs : scanStep st h = .ok st') (hn : eqIgnoreCase h.1 "Host" = true) :
    st'.hostHeader = true := by
  have h1 := eqIgnoreCase_excl h.1 "Host" "Transfer-Encoding" (by decide) hn
  have h2 := eqIgnoreCase_excl h.1 "Host" "Content-Length" (by decide) hn
  have h3 := eqIgnoreCase_excl h.1 "Host" "Connection" (by decide) hn
  unfold scanStep at hs
  split_ifs at hs
  all_goals (repeat' split at hs)
  all_goals (try simp at hs)
  all_goals (repeat' split at hs)
  all_goals (try simp at hs)
  all_goals (try subst hs)
  all_goals simp_all

theorem scanStep_ok_conflicting_mono (st st' : ScanState) (h : Header)
    (hs : scanStep st h = .ok st') (hc : st.conflictingHost = true) :
    st'.conflictingHost = true := by
  unfold scanStep at hs
  split_ifs at hs
  all_goals (repeat' split at hs)
  all_goals (try simp at hs)
  all_goals (repeat' split at hs)
  all_goals (try simp at hs)
  all_goals (try subst hs)
  all_goals simp_all

theorem scanStep_host_dup (st : ScanState) (h : Header)
    (hn : eqIgnoreCase h.1 "Host" = true) (hh : st.hostHeader = true) :
    scanStep st h = .error .duplicateHost := by
  have h1 := eqIgnoreCase_excl h.1 "Host" "Transfer-Encoding" (by decide) hn
  have h2 := eqIgnoreCase_excl h.1 "Host" "Content-Length" (by decide) hn
  have h3 := eqIgnoreCase_excl h.1 "Host" "Connection" (by decide) hn
  unfold scanStep
  simp [h1, h2, h3, hn, hh]

theorem scanStep_host_conflict (st : ScanState) (h : Header) (a : List Char)
    (hn : eqIgnoreCase h.1 "Host" = true) (hh : st.hostHeader = false)
    (ha : st.host = some a) (hd : a ≠ trimChars h.2.toList) :
    scanStep st h =
      .ok { st with hostHeader := true, conflictingHost := true } := by
  have h1 := eqIgnoreCase_excl h.1 "Host" "Transfer-Encoding" (by decide) hn
  have h2 := eqIgnoreCase_excl h.1 "Host" "Content-Length" (by decide) hn
  have h3 := eqIgnoreCase_excl h.1 "Host" "Connection" (by decide) hn
  unfold scanStep
  simp [h1, h2, h3, hn, hh, ha, String.toList]
  intro he
  exact absurd he (by simpa [String.toList] using hd)

theorem scanStep_host_adopt (st : ScanState) (h : Header)
    (hn : eqIgnoreCase h.1 "Host" = true) (hh : st.hostHeader = false)
    (hnone : st.host = none) :
    scanStep st h =
      .ok { st with hostHeader := true,
                    host := some (trimChars h.2.toList) } := by
  have h1 := eqIgnoreCase_excl h.1 "Host" "Transfer-Encoding" (by decide) hn
  have h2 := eqIgnoreCase_excl h.1 "Host" "Content-Length" (by decide) hn
  have h3 := eqIgnoreCase_excl h.1 "Host" "Connection" (by decide) hn
  unfold scanStep
  simp [h1, h2, h3, hn, hh, hnone, String.toList]

theorem foldlM_scan_nil (st : ScanState) :
    List.foldlM scanStep st ([] : List Header) = .ok st := rfl

theorem foldlM_scan_cons (st : ScanState) (h : Header) (t : List Header) :
    List.foldlM scanStep st (h :: t)
      = Except.bind (scanStep st h) (fun s => List.foldlM scanStep s t) := rfl

theorem foldScan_host_some (hs : List Header) :
    ∀ (st st' : ScanState) (a : List Char), st.host = some a →
      hs.foldlM scanStep st = .ok st' → st'.host = some a := by
  induction hs with
  | nil =>
    intro st st' a hh hf
    rw [foldlM_scan_nil] at hf
    simp at hf
    simp [← hf, hh]
  | cons h t ih =>
    intro st st' a hh hf
    rw [foldlM_scan_cons] at hf
    cases he : scanStep st h with
    | error e => rw [he] at hf; simp [Except.bind] at hf
    | ok st1 =>
      rw [he] at hf; simp only [Except.bind] at hf
      exact ih st1 st' a (scanStep_ok_host_some st st1 h a he hh) hf

theorem foldScan_conflicting_mono (hs : List Header) :
    ∀ (st st' : ScanState), st.conflictingHost = true →
      hs.foldlM scanStep st = .ok st' → st'.conflictingHost = true := by
  induction hs with
  | nil =>
    intro st st' hh hf
    rw [foldlM_scan_nil] at hf
    simp at hf
    simp [← hf, hh]
  | cons h t ih =>
    intro st st' hh hf
    rw [foldlM_scan_cons] at hf
    cases he : scanStep st h with
    | error e => rw [he] at hf; simp [Except.bind] at hf
    | ok st1 =>
      rw [he] at hf; simp only [Except.bind] at hf
      exact ih st1 st' (scanStep_ok_conflicting_mono st st1 h he hh) hf

theorem foldScan_no_host (hs : List Header) :
    ∀ (st st' : ScanState), hs.countP (isHdr "Host") = 0 →
      hs.foldlM scanStep st = .ok st' →
      st'.host = st.host ∧ st'.hostHeader = st.hostHeader := by
  induction hs with
  | nil =>
    intro st st' _ hf
    rw [foldlM_scan_nil] at hf
    simp at hf
    simp [← hf]
  | cons h t ih =>
    intro st st' hc hf
    simp only [List.countP_cons] at hc
    have hnh : isHdr "Host" h = false := by
      by_contra hx
      simp [Bool.not_eq_false] at hx
      simp [hx] at hc
    have hnh' : eqIgnoreCase h.1 "Host" = false := hnh
    rw [foldlM_scan_cons] at hf
    cases he : scanStep st h with
    | error e => rw [he] at hf; simp [Except.bind] at hf
    | ok st1 =>
      rw [he] at hf; simp only [Except.bind] at hf
      have h1 := scanStep_ok_host_eq st st1 h he hnh'
      have h2 := ih st1 st' (by omega) hf
      exact ⟨h1.1 ▸ h2.1, h1.2 ▸ h2.2⟩

theorem foldScan_two_cl (hs : List Header) :
    ∀ (st : ScanState),
      (if st.hasContentLength then 1 else 2) ≤
        hs.countP (isHdr "Content-Length") →
      ∃ e, hs.foldlM scanStep st = .error e := by
  induction hs with
  | nil =>
    intro st hc
    split_ifs at hc <;> simp [List.countP, List.countP.go] at hc
  | cons h t ih =>
    intro st hc
    simp only [List.countP_cons] at hc
    by_cases hcl : isHdr "Content-Length" h = true
    · have hcl' : eqIgnoreCase h.1 "Content-Length" = true := hcl
      by_cases hst : st.hasContentLength = true
      · refine ⟨.duplicateContentLength, ?_⟩
        rw [foldlM_scan_cons, scanStep_cl_dup st h hcl' hst]
        rfl
      · cases he : scanStep st h with
        | error e =>
          exact ⟨e, by rw [foldlM_scan_cons, he]; rfl⟩
        | ok st1 =>
          have h1 : st1.hasContentLength = true := scanStep_cl_ok st st1 h hcl' he
          obtain ⟨e, hfe⟩ := ih st1 (by
            simp only [h1, if_true]
            simp only [hcl, if_true, eq_self_iff_true] at hc
            split_ifs at hc
            all_goals omega)
          exact ⟨e, by rw [foldlM_scan_cons, he]; simpa [Except.bind] using hfe⟩
    · have hcl' : eqIgnoreCase h.1 "Content-Length" = false := by
        simpa [isHdr] using hcl
      cases he : scanStep st h with
      | error e =>
        exact ⟨e, by rw [foldlM_scan_cons, he]; rfl⟩
      | ok st1 =>
        have h1 := scanStep_ok_hasCL_eq st st1 h he hcl'
        obtain ⟨e, hfe⟩ := ih st1 (by rw [h1]; simp [hcl] at hc; omega)
        exact ⟨e, by rw [foldlM_scan_cons, he]; simpa [Except.bind] using hfe⟩

theorem foldScan_two_host (hs : List Header) :
    ∀ (st : ScanState),
      (if st.hostHeader then 1 else 2) ≤ hs.countP (isHdr "Host") →
      ∃ e, hs.foldlM scanStep st = .error e := by
  induction hs with
  | nil =>
    intro st hc
    split_ifs at hc <;> simp [List.countP, List.countP.go] at hc
  | cons h t ih =>
    intro st hc
    simp only [List.countP_cons] at hc
    by_cases hh : isHdr "Host" h = true
    · have hh' : eqIgnoreCase h.1 "Host" = true := hh
      by_cases hst : st.hostHeader = true
      · refine ⟨.duplicateHost, ?_⟩
        rw [foldlM_scan_cons, scanStep_host_dup st h hh' hst]
        rfl
      · cases he : scanStep st h with
        | error e =>
          exact ⟨e, by rw [foldlM_scan_cons, he]; rfl⟩
        | ok st1 =>
          have h1 : st1.hostHeader = true := scanStep_ok_hostHeader_set st st1 h he hh'
          obtain ⟨e, hfe⟩ := ih st1 (by
            simp only [h1, if_true]
            simp only [hh, if_true, eq_self_iff_true] at hc
            split_ifs at hc
            all_goals omega)
          exact ⟨e, by rw [foldlM_scan_cons, he]; simpa [Except.bind] using hfe⟩
    · have hh' : eqIgnoreCase h.1 "Host" = false := by simpa [isHdr] using hh
      cases he : scanStep st h with
      | error e =>
        exact ⟨e, by rw [foldlM_scan_cons, he]; rfl⟩
      | ok st1 =>
        have h1 := (scanStep_ok_host_eq st st1 h he hh').2
        obtain ⟨e, hfe⟩ := ih st1 (by rw [h1]; simp [hh] at hc; omega)
        exact ⟨e, by rw [foldlM_scan_cons, he]; simpa [Except.bind] using hfe⟩

theorem foldScan_append_ok (l1 l2 : List Header) (st st' : ScanState)
    (h : List.foldlM scanStep st (l1 ++ l2) = .ok st') :
    ∃ stm, List.foldlM scanStep st l1 = .ok stm ∧
      List.foldlM scanStep stm l2 = .ok st' := by
  rw [List.foldlM_append] at h
  cases hf : List.foldlM scanStep st l1 with
  | error e => rw [hf] at h; exact absurd h (by simp [Bind.bind, Except.bind])
  | ok stm =>
    rw [hf] at h
    exact ⟨stm, rfl, by simpa [Bind.bind, Except.bind] using h⟩

theorem foldScan_cons_ok (h : Header) (t : List Header) (st st' : ScanState)
    (hf : List.foldlM scanStep st (h :: t) = .ok st') :
    ∃ stm, scanStep st h = .ok stm ∧ List.foldlM scanStep stm t = .ok st' := by
  rw [foldlM_scan_cons] at hf
  cases he : scanStep st h with
  | error e => rw [he] at hf; exact absurd hf (by simp [Except.bind])
  | ok stm =>
    rw [he] at hf
    exact ⟨stm, rfl, by simpa [Except.bind] using hf⟩

theorem scan_headers_ok_decomp (method : String) (version : Nat)
    (target : RequestTarget) (hs : List Header) (st : ScanState)
    (h : scan_headers method version target hs = .ok st) :
    ∃ st0, hs.foldlM scanStep (initScan version target) = .ok st0 ∧
      st.host = st0.host ∧ st.conflictingHost = st0.conflictingHost ∧
      st.close = st0.close := by
  unfold scan_headers at h
  cases hf : List.foldlM scanStep (initScan version target) hs with
  | error e => rw [hf] at h; exact absurd h (by simp)
  | ok st0 =>
    rw [hf] at h
    simp only [Except.ok.injEq] at h
    refine ⟨st0, rfl, ?_⟩
    split_ifs at h
    all_goals simp [← h]

theorem scan_headers_error_of_fold (method : String) (version : Nat)
    (target : RequestTarget) (hs : List Header) (e : ScanError)
    (hf : hs.foldlM scanStep (initScan version target) = .error e) :
    scan_headers method version target hs = .error e := by
  unfold scan_headers
  rw [hf]

theorem scanStep_te_chunked (st : ScanState) (nm v : String) (enc : List Char)
    (hn : eqIgnoreCase nm "Transfer-Encoding" = true)
    (hl : (splitChars ',' v.toList).getLast? = some enc)
    (hc : is_chunked enc = true) :
    scanStep st (nm, v) =
      .ok { st with body := .chunked,
                    close := if st.hasContentLength then true else st.close } := by
  unfold scanStep
  simp only [hn, if_true, String.toList] at *
  rw [hl]
  simp [hc]

theorem scanStep_te_notchunked (st : ScanState) (nm v : String) (enc : List Char)
    (hn : eqIgnoreCase nm "Transfer-Encoding" = true)
    (hl : (splitChars ',' v.toList).getLast? = some enc)
    (hc : is_chunked enc = false) :
    scanStep st (nm, v) = .ok st := by
  unfold scanStep
  simp only [hn, if_true, String.toList] at *
  rw [hl]
  simp [hc]

theorem scanStep_cl_on_chunked (st : ScanState) (nm v : String)
    (hn : eqIgnoreCase nm "Content-Length" = true)
    (hst : st.hasContentLength = false) (hb : st.body = .chunked) :
    scanStep st (nm, v) = .ok { st with hasContentLength := true, close := true } := by
  have hne := eqIgnoreCase_excl nm "Content-Length" "Transfer-Encoding" (by decide) hn
  unfold scanStep
  simp [hne, hn, hst, hb]

theorem scanStep_cl_parse (st : ScanState) (nm v : String) (n : Nat)
    (hn : eqIgnoreCase nm "Content-Length" = true)
    (hst : st.hasContentLength = false) (hb : st.body ≠ .chunked)
    (hw : parseU64 v.toList = some n) :
    scanStep st (nm, v) =
      .ok { st with hasContentLength := true, body := .fixed n } := by
  have hne := eqIgnoreCase_excl nm "Content-Length" "Transfer-Encoding" (by decide) hn
  unfold scanStep
  simp only [String.toList] at hw
  simp [hne, hn, hst, hb, hw]

theorem scan_order_te_cl (method : String) (version : Nat) (target : RequestTarget)
    (nm1 v nm2 w : String) (enc : List Char) (n : Nat)
    (hm : (method == "CONNECT") = false)
    (hn1 : eqIgnoreCase nm1 "Transfer-Encoding" = true)
    (hl : (splitChars ',' v.toList).getLast? = some enc)
    (hchu : is_chunked enc = true)
    (hn2 : eqIgnoreCase nm2 "Content-Length" = true)
    (_hw : parseU64 w.toList = some n) :
    ∃ st, scan_headers method version target [(nm1, v), (nm2, w)] = .ok st ∧
      st.body = .chunked ∧ st.close = true := by
  have h1 := scanStep_te_chunked (initScan version target) nm1 v enc hn1 hl hchu
  refine ⟨{ initScan version target with
            hasContentLength := true, body := .chunked, close := true },
          ?_, rfl, rfl⟩
  unfold scan_headers
  rw [foldlM_scan_cons, h1]
  simp only [Except.bind]
  rw [foldlM_scan_cons, scanStep_cl_on_chunked _ nm2 w hn2 rfl rfl]
  simp only [Except.bind, foldlM_scan_nil, hm, Bool.false_eq_true, if_false]

theorem scan_order_cl_te (method : String) (version : Nat) (target : RequestTarget)
    (nm1 v nm2 w : String) (enc : List Char) (n : Nat)
    (hm : (method == "CONNECT") = false)
    (hn1 : eqIgnoreCase nm1 "Transfer-Encoding" = true)
    (hl : (splitChars ',' v.toList).getLast? = some enc)
    (hchu : is_chunked enc = true)
    (hn2 : eqIgnoreCase nm2 "Content-Length" = true)
    (hw : parseU64 w.toList = some n) :
    ∃ st, scan_headers method version target [(nm2, w), (nm1, v)] = .ok st ∧
      st.body = .chunked ∧ st.close = true := by
  have h1 := scanStep_cl_parse (initScan version target) nm2 w n hn2 rfl
    (by simp [initScan]) hw
  refine ⟨{ initScan version target with
            hasContentLength := true, body := .chunked, close := true },
          ?_, rfl, rfl⟩
  unfold scan_headers
  rw [foldlM_scan_cons, h1]
  simp only [Except.bind]
  rw [foldlM_scan_cons, scanStep_te_chunked _ nm1 v enc hn1 hl hchu]
  simp only [Except.bind, foldlM_scan_nil, hm, Bool.false_eq_true, if_false]
  rfl

theorem scan_dup_cl_precise (pre : List Header) (nm v : String)
    (rest : List Header) (method : String) (version : Nat)
    (target : RequestTarget) (st : ScanState)
    (hpre : List.foldlM scanStep (initScan version target) pre = .ok st)
    (hcl : st.hasContentLength = true)
    (hn : eqIgnoreCase nm "Content-Length" = true) :
    scan_headers method version target (pre ++ (nm, v) :: rest)
      = .error .duplicateContentLength := by
  apply scan_headers_error_of_fold
  rw [List.foldlM_append, hpre]
  show Except.bind _ _ = _
  simp only [Except.bind]
  rw [foldlM_scan_cons, scanStep_cl_dup st (nm, v) hn hcl]
  rfl

theorem scan_dup_host_precise (pre : List Header) (nm v : String)
    (rest : List Header) (method : String) (version : Nat)
    (target : RequestTarget) (st : ScanState)
    (hpre : List.foldlM scanStep (initScan version target) pre = .ok st)
    (hho : st.hostHeader = true)
    (hn : eqIgnoreCase nm "Host" = true) :
    scan_headers method version target (pre ++ (nm, v) :: rest)
      = .error .duplicateHost := by
  apply scan_headers_error_of_fold
  rw [List.foldlM_append, hpre]
  show Except.bind _ _ = _
  simp only [Except.bind]
  rw [foldlM_scan_cons, scanStep_host_dup st (nm, v) hn hho]
  rfl

/-- C1: `scan_headers` body-framing precedence: a `Transfer-Encoding`
header whose last comma token is `chunked` makes the framing `Chunked`
(and forces `connection_close` when a `Content-Length` was already
seen); with both a chunked `Transfer-Encoding` and a `Content-Length`
present, in either header order, the result is `Chunked` with
`connection_close = true`; a `Transfer-Encoding` whose last token is not
`chunked` leaves the framing unchanged (`Fixed(0)` from the default);
and a second `Content-Length` header is the hard error
`DuplicateContentLength`. -/
theorem c1_scan_headers_framing_precedence :
    (∀ (st : ScanState) (nm v : String) (enc : List Char),
       eqIgnoreCase nm "Transfer-Encoding" = true →
       (splitChars ',' v.toList).getLast? = some enc →
       is_chunked enc = true →
       scanStep st (nm, v) =
         .ok { st with
               body := .chunked
               close := if st.hasContentLength then true else st.close })
    ∧ (∀ (st : ScanState) (nm v : String) (enc : List Char),
       eqIgnoreCase nm "Transfer-Encoding" = true →
       (splitChars ',' v.toList).getLast? = some enc →
       is_chunked enc = false →
       scanStep st (nm, v) = .ok st)
    ∧ (∀ (method : String) (version : Nat) (target : RequestTarget)
         (nm1 v nm2 w : String) (enc : List Char) (n : Nat),
       (method == "CONNECT") = false →
       eqIgnoreCase nm1 "Transfer-Encoding" = true →
       (splitChars ',' v.toList).getLast? = some enc →
       is_chunked enc = true →
       eqIgnoreCase nm2 "Content-Length" = true →
       parseU64 w.toList = some n →
       (∃ st, scan_headers method version target [(nm1, v), (nm2, w)] = .ok st ∧
          st.body = .chunked ∧ st.close = true)
       ∧ (∃ st, scan_headers method version target [(nm2, w), (nm1, v)] = .ok st ∧
          st.body = .chunked ∧ st.close = true))
    ∧ ((scan_headers "GET" 1 (.origin "/")
          [("Transfer-Encoding", "chunked, gzip")]).map (fun st => st.body)
        = .ok (.fixed 0))
    ∧ (∀ (hs : List Header) (method : String) (version : Nat)
         (target : RequestTarget),
       2 ≤ hs.countP (isHdr "Content-Length") →
       ∃ e, scan_headers method version target hs = .error e)
    ∧ (∀ (pre : List Header) (nm v : String) (rest : List Header)
         (method : String) (version : Nat) (target : RequestTarget)
         (st : ScanState),
       List.foldlM scanStep (initScan version target) pre = .ok st →
       st.hasContentLength = true →
       eqIgnoreCase nm "Content-Length" = true →
       scan_headers method version target (pre ++ (nm, v) :: rest)
         = .error .duplicateContentLength) := by
  refine ⟨scanStep_te_chunked, scanStep_te_notchunked, ?_, by decide, ?_, ?_⟩
  · intro method version target nm1 v nm2 w enc n hm hn1 hl hchu hn2 hw
    exact ⟨scan_order_te_cl method version target nm1 v nm2 w enc n
             hm hn1 hl hchu hn2 hw,
           scan_order_cl_te method version target nm1 v nm2 w enc n
             hm hn1 hl hchu hn2 hw⟩
  · intro hs method version target hcount
    obtain ⟨e, he⟩ := foldScan_two_cl hs (initScan version target)
      (by simpa [initScan] using hcount)
    exact ⟨e, scan_headers_error_of_fold method version target hs e he⟩
  · exact fun pre nm v rest method version target st =>
      scan_dup_cl_precise pre nm v rest method version target st


theorem c1_scan_headers_framing_precedence_witness :
    (scanStep (initScan 1 (.origin "/")) ("Transfer-Encoding", "gzip, chunked")
      = .ok { initScan 1 (.origin "/") with
              body := .chunked
              close := if (initScan 1 (.origin "/")).hasContentLength then true
                       else (initScan 1 (.origin "/")).close })
    ∧ (scanStep (initScan 1 (.origin "/")) ("Transfer-Encoding", "chunked, gzip")
        = .ok (initScan 1 (.origin "/")))
    ∧ ((scan_headers "GET" 1 (.origin "/")
          [("Transfer-Encoding", "chunked"), ("Content-Length", "5")]).map
            (fun st => (st.body, st.close)) = .ok (.chunked, true))
    ∧ ((scan_headers "GET" 1 (.origin "/")
          [("Content-Length", "5"), ("Transfer-Encoding", "chunked")]).map
            (fun st => (st.body, st.close)) = .ok (.chunked, true))
    ∧ ((scan_headers "GET" 1 (.origin "/")
          [("Content-Length", "5"), ("Content-Length", "5")]).isOk = false)
    ∧ (scan_headers "GET" 1 (.origin "/")
        ([("Content-Length", "5")] ++ ("Content-Length", "6") :: [])
        = .error .duplicateContentLength) := by
  refine ⟨?_, ?_, ?_, ?_, ?_, ?_⟩
  · exact c1_scan_headers_framing_precedence.1 _ _ _ " chunked".toList
      (by decide) (by decide) (by decide)
  · exact c1_scan_headers_framing_precedence.2.1 _ _ _ " gzip".toList
      (by decide) (by decide) (by decide)
  · obtain ⟨st, hst, hb, hc⟩ :=
      ((c1_scan_headers_framing_precedence.2.2.1 "GET" 1 (.origin "/")
        "Transfer-Encoding" "chunked" "Content-Length" "5" "chunked".toList 5
        (by decide) (by decide) (by decide) (by decide) (by decide)
        (by decide))).1
    rw [hst]
    simp only [Except.map]
    rw [hb, hc]
  · obtain ⟨st, hst, hb, hc⟩ :=
      ((c1_scan_headers_framing_precedence.2.2.1 "GET" 1 (.origin "/")
        "Transfer-Encoding" "chunked" "Content-Length" "5" "chunked".toList 5
        (by decide) (by decide) (by decide) (by decide) (by decide)
        (by decide))).2
    rw [hst]
    simp only [Except.map]
    rw [hb, hc]
  · obtain ⟨e, he⟩ := c1_scan_headers_framing_precedence.2.2.2.2.1
      [("Content-Length", "5"), ("Content-Length", "5")] "GET" 1 (.origin "/")
      (by decide)
    rw [he]
    rfl
  · exact c1_scan_headers_framing_precedence.2.2.2.2.2
      [("Content-Length", "5")] "Content-Length" "6" [] "GET" 1 (.origin "/")
      { initScan 1 (.origin "/") with hasContentLength := true, body := .fixed 5 }
      (by decide) (by decide) (by decide)

theorem scan_absolute_host (method : String) (version : Nat)
    (auth path : String) (hs : List Header) (st : ScanState)
    (h : scan_headers method version (.absolute auth path) hs = .ok st) :
    st.host = some auth.toList := by
  obtain ⟨st0, hf, hh, _, _⟩ :=
    scan_headers_ok_decomp method version (.absolute auth path) hs st h
  rw [hh]
  exact foldScan_host_some hs _ st0 auth.toList rfl hf

theorem scan_authority_host (method : String) (version : Nat)
    (auth : String) (hs : List Header) (st : ScanState)
    (h : scan_headers method version (.authority auth) hs = .ok st) :
    st.host = some auth.toList := by
  obtain ⟨st0, hf, hh, _, _⟩ :=
    scan_headers_ok_decomp method version (.authority auth) hs st h
  rw [hh]
  exact foldScan_host_some hs _ st0 auth.toList rfl hf

theorem scan_conflicting_host (pre : List Header) (nm v : String)
    (rest : List Header) (method : String) (version : Nat)
    (auth path : String) (st : ScanState)
    (hn : eqIgnoreCase nm "Host" = true)
    (hd : auth.toList ≠ trimChars v.toList)
    (h : scan_headers method version (.absolute auth path)
          (pre ++ (nm, v) :: rest) = .ok st) :
    st.conflictingHost = true ∧ st.host = some auth.toList := by
  obtain ⟨st0, hf, hh, hcf, _⟩ :=
    scan_headers_ok_decomp method version (.absolute auth path) _ st h
  obtain ⟨stm, hfpre, hfrest⟩ := foldScan_append_ok pre _ _ st0 hf
  obtain ⟨st2, hstep, hfrest2⟩ := foldScan_cons_ok (nm, v) rest stm st0 hfrest
  have hhost : stm.host = some auth.toList :=
    foldScan_host_some pre _ stm auth.toList rfl hfpre
  have hhh : stm.hostHeader = false := by
    by_contra hx
    simp only [Bool.not_eq_false] at hx
    rw [scanStep_host_dup stm (nm, v) hn hx] at hstep
    exact absurd hstep (by simp)
  rw [scanStep_host_conflict stm (nm, v) auth.toList hn hhh hhost hd] at hstep
  simp only [Except.ok.injEq] at hstep
  have h2c : st2.conflictingHost = true := by rw [← hstep]
  have h2h : st2.host = some auth.toList := by rw [← hstep]; exact hhost
  rw [hh, hcf]
  exact ⟨foldScan_conflicting_mono rest st2 st0 h2c hfrest2,
         foldScan_host_some rest st2 st0 auth.toList h2h hfrest2⟩

theorem scan_adopt_host (pre : List Header) (nm v : String)
    (rest : List Header) (method : String) (version : Nat)
    (path : String) (st : ScanState)
    (hn : eqIgnoreCase nm "Host" = true)
    (hpre : pre.countP (isHdr "Host") = 0)
    (h : scan_headers method version (.origin path)
          (pre ++ (nm, v) :: rest) = .ok st) :
    st.host = some (trimChars v.toList) := by
  obtain ⟨st0, hf, hh, _, _⟩ :=
    scan_headers_ok_decomp method version (.origin path) _ st h
  obtain ⟨stm, hfpre, hfrest⟩ := foldScan_append_ok pre _ _ st0 hf
  obtain ⟨st2, hstep, hfrest2⟩ := foldScan_cons_ok (nm, v) rest stm st0 hfrest
  obtain ⟨hmh, hmhh⟩ := foldScan_no_host pre _ stm hpre hfpre
  rw [scanStep_host_adopt stm (nm, v) hn (by rw [hmhh]; rfl)
    (by rw [hmh]; rfl)] at hstep
  simp only [Except.ok.injEq] at hstep
  have h2h : st2.host = some (trimChars v.toList) := by
    rw [← hstep]
  rw [hh]
  exact foldScan_host_some rest st2 st0 _ h2h hfrest2

/-- C8: `scan_headers` host handling: two `Host` headers are a hard
error (`DuplicateHost`); when the request-target carries an authority
(absolute or authority form) the scanned host is that authority, and a
`Host` header whose trimmed value differs only sets
`conflicting_host = true` without changing the host; when the target
carries no authority the trimmed `Host` header value is adopted. -/
theorem c8_scan_headers_host :
    (∀ (hs : List Header) (method : String) (version : Nat)
       (target : RequestTarget),
       2 ≤ hs.countP (isHdr "Host") →
       ∃ e, scan_headers method version target hs = .error e)
    ∧ (∀ (pre : List Header) (nm v : String) (rest : List Header)
         (method : String) (version : Nat) (target : RequestTarget)
         (st : ScanState),
       List.foldlM scanStep (initScan version target) pre = .ok st →
       st.hostHeader = true →
       eqIgnoreCase nm "Host" = true →
       scan_headers method version target (pre ++ (nm, v) :: rest)
         = .error .duplicateHost)
    ∧ (∀ (method : String) (version : Nat) (auth path : String)
         (hs : List Header) (st : ScanState),
       scan_headers method version (.absolute auth path) hs = .ok st →
       st.host = some auth.toList)
    ∧ (∀ (method : String) (version : Nat) (auth : String)
         (hs : List Header) (st : ScanState),
       scan_headers method version (.authority auth) hs = .ok st →
       st.host = some auth.toList)
    ∧ (∀ (pre : List Header) (nm v : String) (rest : List Header)
         (method : String) (version : Nat) (auth path : String)
         (st : ScanState),
       eqIgnoreCase nm "Host" = true →
       auth.toList ≠ trimChars v.toList →
       scan_headers method version (.absolute auth path)
         (pre ++ (nm, v) :: rest) = .ok st →
       st.conflictingHost = true ∧ st.host = some auth.toList)
    ∧ (∀ (pre : List Header) (nm v : String) (rest : List Header)
         (method : String) (version : Nat) (path : String) (st : ScanState),
       eqIgnoreCase nm "Host" = true →
       pre.countP (isHdr "Host") = 0 →
       scan_headers method version (.origin path)
         (pre ++ (nm, v) :: rest) = .ok st →
       st.host = some (trimChars v.toList)) := by
  refine ⟨?_, scan_dup_host_precise, scan_absolute_host, scan_authority_host,
          ?_, ?_⟩
  · intro hs method version target hcount
    obtain ⟨e, he⟩ := foldScan_two_host hs (initScan version target)
      (by simpa [initScan] using hcount)
    exact ⟨e, scan_headers_error_of_fold method version target hs e he⟩
  · exact fun pre nm v rest method version auth path st hn hd h =>
      scan_conflicting_host pre nm v rest method version auth path st hn hd h
  · exact fun pre nm v rest method version path st hn hpre h =>
      scan_adopt_host pre nm v rest method version path st hn hpre h

theorem c8_scan_headers_host_witness :
    ((scan_headers "GET" 1 (.origin "/") [("Host", "a"), ("Host", "b")]).isOk
      = false)
    ∧ (scan_headers "GET" 1 (.origin "/")
        ([("Host", "a")] ++ ("Host", "b") :: []) = .error .duplicateHost)
    ∧ ({ initScan 1 (RequestTarget.absolute "h.example" "/") with
         hostHeader := true, conflictingHost := true } : ScanState).host
        = some "h.example".toList
    ∧ ({ initScan 1 (RequestTarget.authority "h.example:80") with
         hostHeader := true } : ScanState).host = some "h.example:80".toList
    ∧ (({ initScan 1 (RequestTarget.absolute "h.example" "/") with
          hostHeader := true, conflictingHost := true } : ScanState).conflictingHost
         = true
       ∧ ({ initScan 1 (RequestTarget.absolute "h.example" "/") with
            hostHeader := true, conflictingHost := true } : ScanState).host
           = some "h.example".toList)
    ∧ ({ initScan 1 (RequestTarget.origin "/") with
         hostHeader := true,
         host := some (trimChars " a.example ".toList) } : ScanState).host
        = some (trimChars " a.example ".toList) := by
  refine ⟨?_, ?_, ?_, ?_, ?_, ?_⟩
  · obtain ⟨e, he⟩ := c8_scan_headers_host.1 [("Host", "a"), ("Host", "b")]
      "GET" 1 (.origin "/") (by decide)
    rw [he]
    rfl
  · exact c8_scan_headers_host.2.1 [("Host", "a")] "Host" "b" [] "GET" 1
      (.origin "/")
      { initScan 1 (.origin "/") with hostHeader := true, host := some "a".toList }
      (by decide) (by decide) (by decide)
  · exact c8_scan_headers_host.2.2.1 "GET" 1 "h.example" "/"
      [("Host", "example.org")] _ (by decide)
  · exact c8_scan_headers_host.2.2.2.1 "GET" 1 "h.example:80"
      [("Host", "h.example:80")] _ (by decide)
  · exact c8_scan_headers_host.2.2.2.2.1 [] "Host" "example.org" [] "GET" 1
      "h.example" "/" _ (by decide) (by decide) (by decide)
  · exact c8_scan_headers_host.2.2.2.2.2 [] "Host" " a.example " [] "GET" 1 "/"
      _ (by decide) (by decide) (by decide)



end TkHttp

namespace TkHttp

/-- C5: `start_send` returns `NotReady` handing the codec back with the
engine unchanged exactly when the writer is mid-message (`Write`) or the
shared close flag is set; otherwise (writer `Idle`, close unset) it
calls the codec's `start_write` with a fresh encoder (fresh counter 0)
and, unless that fails immediately, pushes `(codec, counter)` onto the
wait queue and accepts. -/
theorem c5_start_send_backpressure :
    ∀ (p : Proto) (item : Codec) (sw : Codec → EncoderM → OptFutureRes),
      p.writing ≠ .void →
      ((start_send p item sw = .notReady item p) ↔
        ((∃ f, p.writing = .write f) ∨ p.close = true))
      ∧ (∀ io, p.writing = .idle io → p.close = false →
          (∀ done, sw item ⟨io, 0, false⟩ = .valueOk done →
            start_send p item sw =
              .ready { p with writing := .idle done,
                              waiting := p.waiting ++ [(item, 0)] })
          ∧ (∀ fut, sw item ⟨io, 0, false⟩ = .future fut →
            start_send p item sw =
              .ready { p with writing := .write fut,
                              waiting := p.waiting ++ [(item, 0)] })
          ∧ (∀ e, sw item ⟨io, 0, false⟩ = .valueErr e →
            start_send p item sw = .error e { p with writing := .void })) := by
  intro p item sw hv
  obtain ⟨w, q, r, c⟩ := p
  cases w with
  | void => simp at hv
  | write fut =>
    refine ⟨⟨fun _ => Or.inl ⟨fut, rfl⟩, fun _ => by simp [start_send]⟩, ?_⟩
    intro io hw
    exact absurd hw (by simp)
  | idle io0 =>
    cases c with
    | true =>
      refine ⟨⟨fun _ => Or.inr rfl, fun _ => by simp [start_send]⟩, ?_⟩
      intro io hw hc
      exact absurd hc (by simp)
    | false =>
      constructor
      · constructor
        · intro hr
          simp only [start_send] at hr
          cases hsw : sw item ⟨io0, 0, false⟩ <;>
            rw [hsw] at hr <;> simp at hr
        · intro hor
          rcases hor with ⟨f, hf⟩ | hcl
          · exact absurd hf (by simp)
          · exact absurd hcl (by simp)
      · intro io hw hc
        have hio : io0 = io := by simpa using hw
        subst hio
        refine ⟨?_, ?_, ?_⟩
        · intro done hsw
          simp [start_send, hsw]
        · intro fut hsw
          simp [start_send, hsw]
        · intro e hsw
          simp [start_send, hsw]

theorem c5_start_send_backpressure_witness :
    (start_send ⟨.write 3, [(7, 0)], .idle 1, false⟩ 9 (fun _ _ => .future 4)
      = .notReady 9 ⟨.write 3, [(7, 0)], .idle 1, false⟩)
    ∧ (start_send ⟨.idle 2, [], .idle 1, false⟩ 9 (fun _ _ => .future 4)
      = .ready ⟨.write 4, [(9, 0)], .idle 1, false⟩) := by
  constructor
  · exact (c5_start_send_backpressure ⟨.write 3, [(7, 0)], .idle 1, false⟩ 9
      (fun _ _ => .future 4) (by simp)).1.mpr (Or.inl ⟨3, rfl⟩)
  · exact ((c5_start_send_backpressure ⟨.idle 2, [], .idle 1, false⟩ 9
      (fun _ _ => .future 4) (by simp)).2 2 rfl rfl).2.1 4 rfl

/-- C6: `poll_complete` never returns `Ok(Async::Ready(()))`: every call
yields `NotReady`, an error, or the modelled panic; in particular when
the parser reports the peer closed mid-response (`Ready(None)`) the
result is `Err(Closed)`. -/
theorem c6_poll_complete_never_ready :
    ∀ (p : Proto) (wp : WritePoll) (oracle : List ParserPoll),
      (∀ q, poll_complete p wp oracle ≠ .ok_ready q)
      ∧ (∀ pr io rest, p.reading = .read pr → p.writing = .idle io →
          oracle = .readyNone :: rest →
          poll_complete p wp oracle = .error .closed) := by
  intro p wp oracle
  have hread : ∀ (q : Proto) (oc : List ParserPoll),
      pollRead q oc ≠ .ok_ready q → True := fun _ _ _ => trivial
  constructor
  · intro q
    unfold poll_complete
    have hpr : ∀ (r : Proto) (oc : List ParserPoll),
        pollRead r oc ≠ PollResult.ok_ready q := by
      intro r oc
      unfold pollRead
      cases hl : readLoop r.reading r.waiting oc <;> simp
    cases p.writing with
    | void => simp
    | idle io => exact hpr _ _
    | write fut =>
      cases wp with
      | err e => simp
      | ready done => exact hpr _ _
      | notReady => exact hpr _ _
  · intro pr io rest hr hw ho
    unfold poll_complete
    rw [hw]
    unfold pollRead
    simp only [hr, ho]
    rw [show readLoop (.read pr) p.waiting (.readyNone :: rest)
          = .closedErr from by rw [readLoop]]

theorem c6_poll_complete_never_ready_witness :
    (poll_complete ⟨.idle 0, [], .idle 1, false⟩ .notReady []
      ≠ .ok_ready ⟨.idle 0, [], .idle 1, false⟩)
    ∧ (poll_complete ⟨.idle 0, [(5, 0)], .read (1, 5, 0), false⟩ .notReady
        [.readyNone] = .error .closed) := by
  constructor
  · exact (c6_poll_complete_never_ready ⟨.idle 0, [], .idle 1, false⟩
      .notReady []).1 ⟨.idle 0, [], .idle 1, false⟩
  · exact (c6_poll_complete_never_ready ⟨.idle 0, [(5, 0)], .read (1, 5, 0), false⟩
      .notReady [.readyNone]).2 (1, 5, 0) 0 [] rfl rfl rfl

/-- C9: the source does not bound the wait queue (`TODO` in
`start_send`): with the writer `Idle` and close unset, a codec is
accepted even when 128 exchanges are already in flight, growing the
queue to 129 instead of returning `Backpressure`. -/
theorem c9_no_queue_bound :
    start_send ⟨.idle 0, List.replicate 128 (0, 0), .idle 0, false⟩ 1
        (fun _ _ => .future 5)
      = .ready ⟨.write 5, List.replicate 128 (0, 0) ++ [(1, 0)], .idle 0, false⟩
    ∧ (List.replicate 128 ((0 : Nat), (0 : Nat))).length = 128
    ∧ (List.replicate 128 ((0 : Nat), (0 : Nat)) ++ [(1, 0)]).length = 129 := by
  refine ⟨rfl, by simp, by simp⟩

end TkHttp

namespace TkHttp

set_option maxRecDepth 10000 in
/-- C3: on the RFC 6455 sample handshake request (scenario S5 —
`Connection: Upgrade`, `Upgrade: websocket`, `Sec-WebSocket-Version:
13`, a `Sec-WebSocket-Key`, no body) `get_handshake` returns `Err(())`
instead of the claimed `Ok(Some(handshake))`: the `HeaderIter` it scans
strips the `Upgrade` header unconditionally (only the key and version
survive), so `upgrade` is never set.  The accept computation itself
matches the claim: base64(SHA1(key ++ GUID)) formats as
`s3pPLMBiTxaQ9kYGzzhZRbK+xOo=`. -/
theorem c3_get_handshake_upgrade_stripped :
    (buildHead "GET" "/" (.origin "/") 1 s5Headers).map get_handshake
      = .ok (.error ())
    ∧ (buildHead "GET" "/" (.origin "/") 1 s5Headers).map
        (fun head => (headersIter head).map (fun h => h.1))
      = .ok ["Sec-WebSocket-Key", "Sec-WebSocket-Version"]
    ∧ wsAcceptString (sha1 (bytesTrim (strBytes "dGhlIHNhbXBsZSBub25jZQ==")
        ++ strBytes wsGUID)) = "s3pPLMBiTxaQ9kYGzzhZRbK+xOo=" := by
  refine ⟨by decide, by decide, by decide⟩

end TkHttp
